import Mathlib

/-
Verification model of the `flip` image-to-gif batch converter (src/main.rs).

The per-image pipeline `flip` and the batch loop of `main` are embedded as
pure Lean functions.  Machine arithmetic follows the source: dimensions are
`u32` (arithmetic that can overflow is written with the release-build wrap,
`% 2^32`; casts saturate), and the `f32` scale arithmetic is modelled by
`toF32`, IEEE-754 binary32 rounding (round to nearest, ties to even) of
exact rational values.  Filesystem and process effects (file creation,
frame encoding, deletion, console writes, panics) are modelled by an
explicit environment record and an event trace, so that "no file is
created" or "the process panics" become statements about the trace and the
result.  Every console write of the program is fallible and panicking:
the progress `print!` and its `flush().expect(..)`, the `println!` after a
successful encode, and the `eprintln!` failure reports of the driver; each
has its own success flag in the environment.

The external collaborators called by the source are embedded from their
documented behaviour in the `image` crate and `std`:
 * `DynamicImage::crop` clamps the requested rectangle to the image bounds
   (`cropDims` below);
 * `DynamicImage::resize` preserves the aspect ratio: it scales the image to
   the largest size that fits inside the requested bounding box
   (`resize_dimensions` below, the dimension computation of the crate).
   Its internal `f64` ratio arithmetic is treated as exact rational
   arithmetic, a deliberate idealization: the 53-bit precision is far
   beyond the 32-bit magnitudes involved.  The zero-dimension case agrees
   with the crate (division by zero, NaN product, saturating cast to 0,
   then `max 1`; in the rational model the division by zero yields 0 with
   the same final result);
 * `PathBuf::set_extension` replaces the extension of the file name.
-/

namespace Flip

/-- `u32::MAX`, the saturation bound of `as u32` casts. -/
def U32MAX : ℕ := 4294967295

/-- `u32` wrap-around: release-build semantics of overflowing `u32`
arithmetic (a debug build would panic instead of wrapping). -/
def wrap32 (n : ℕ) : ℕ := n % 4294967296

/-- The float `round` of Rust: round half away from zero (for the
nonnegative values arising here this is round half up). -/
def rustRound (q : ℚ) : ℤ := if q < 0 then -(round (-q)) else round q

/-- The Rust cast `x.round() as u32`: a saturating cast clamping to
`[0, u32::MAX]`. -/
def roundToU32 (q : ℚ) : ℕ := (min (rustRound q) (U32MAX : ℤ)).toNat

/-- Round to the nearest integer, ties to even: the IEEE-754 default
rounding used inside float arithmetic. -/
def roundNearestEven (q : ℚ) : ℤ :=
  if q - ⌊q⌋ < 1/2 then ⌊q⌋
  else if 1/2 < q - ⌊q⌋ then ⌊q⌋ + 1
  else if ⌊q⌋ % 2 = 0 then ⌊q⌋ else ⌊q⌋ + 1

/-- IEEE-754 binary32 rounding: the nearest value with a 24-bit significand,
round to nearest, ties to even.  Normal range only: exponent overflow and
subnormal underflow are not modelled, being unreachable for the magnitudes
this program handles (dimensions up to `u32::MAX`, scale clamped to 10). -/
def toF32 (q : ℚ) : ℚ :=
  if q = 0 then 0
  else ((roundNearestEven (q / 2 ^ (Int.log 2 |q| - 23)) : ℚ)) * 2 ^ (Int.log 2 |q| - 23)

/-- Dimensions produced by `image::imageops::crop` (via `crop_dimms`): the
requested rectangle `(x, y, width, height)` is clamped to the bounds of the
`iw × ih` image. -/
def cropDims (iw ih x y width height : ℕ) : ℕ × ℕ :=
  (min width (iw - min x iw), min height (ih - min y ih))

/-- The crop block of `flip` (src/main.rs lines 77-95): for `crop > 0` the
total reduction `2 * crop` is computed in `u32` (wrapping in release) and
clamped to each dimension; if the image is strictly larger than the clamped
reduction on both axes the image is cropped to `(w - crop_x) × (h - crop_y)`
starting at `(crop, crop)` (with the bound-clamp of the crate), otherwise
the conversion fails with a descriptive message.  `crop = 0` is a
pass-through. -/
def cropStep (w h crop : ℕ) : Except String (ℕ × ℕ) :=
  if 0 < crop then
    let crop_x := min (wrap32 (2 * crop)) w
    let crop_y := min (wrap32 (2 * crop)) h
    if crop_x < w ∧ crop_y < h then
      Except.ok (cropDims w h crop crop (w - crop_x) (h - crop_y))
    else
      Except.error ("crop value " ++ toString crop ++
        " too large for image dimensions " ++ toString w ++ "x" ++ toString h ++
        ", skipping crop")
  else Except.ok (w, h)

/-- The bounding-box edge computed by `flip` for one axis
(src/main.rs lines 100-101): `((d as f32 * scale).round() as u32).max(2)`.
The dimension is converted to f32 and the product is an f32 product, both
rounding; the scale argument is itself an f32 value in the program. -/
def resizeTarget (d : ℕ) (s : ℚ) : ℕ :=
  max (roundToU32 (toF32 (toF32 (d : ℚ) * s))) 2

/-- `image::math::utils::resize_dimensions` with `fill = false`, as called
by `DynamicImage::resize`: the aspect-ratio-preserving fit of a
`width × height` image into an `nwidth × nheight` bounding box.  The ratio
is the smaller of the two per-axis ratios; each output edge is the rounded
scaled input edge, at least 1, with an overflow fallback pinning the
offending edge to `u32::MAX`.  The `f64` arithmetic is treated as exact
(see the header comment). -/
def resize_dimensions (width height nwidth nheight : ℕ) : ℕ × ℕ :=
  let wq : ℚ := (nwidth : ℚ) / (width : ℚ)
  let hq : ℚ := (nheight : ℚ) / (height : ℚ)
  let r := min wq hq
  let nw := max (rustRound ((width : ℚ) * r)).toNat 1
  let nh := max (rustRound ((height : ℚ) * r)).toNat 1
  if U32MAX < nw then
    (U32MAX, max (roundToU32 ((height : ℚ) * ((U32MAX : ℚ) / (width : ℚ)))) 1)
  else if U32MAX < nh then
    (max (roundToU32 ((width : ℚ) * ((U32MAX : ℚ) / (height : ℚ)))) 1, U32MAX)
  else (nw, nh)

/-- Dimensions after the resize call of `flip` (src/main.rs lines 98-103):
the box passed to `DynamicImage::resize` is `resizeTarget` per axis, and
`resize` returns the image unchanged when the box equals the current
dimensions, otherwise the aspect-preserving fit `resize_dimensions`. -/
def resizeStep (w h : ℕ) (s : ℚ) : ℕ × ℕ :=
  let nwidth := resizeTarget w s
  let nheight := resizeTarget h s
  if nwidth = w ∧ nheight = h then (w, h)
  else resize_dimensions w h nwidth nheight

/-- A filesystem path, abstracted to the file stem and the (optional)
extension of its file name, the two parts `PathBuf::set_extension` acts on. -/
structure PathBuf where
  stem : String
  ext : Option String
deriving DecidableEq

/-- `PathBuf::set_extension`: replace (or add) the extension. -/
def PathBuf.set_extension (p : PathBuf) (e : String) : PathBuf :=
  { p with ext := some e }

/-- `Path::display`, restricted to the file-name part modelled here. -/
def PathBuf.display (p : PathBuf) : String :=
  p.stem ++ (match p.ext with | some e => "." ++ e | none => "")

/-- Environment of one batch entry: the outcome of each external effect.
`decoded` is the result of `image::open` (the dimensions of the decoded
image, or `none` on failure).  The flags tell whether each fallible effect
succeeds: `createOk` is `File::create`; `printOk` the `print!` of the
progress line (src/main.rs line 116); `flushOk` its
`flush().expect("whoops...")` (line 117); `encodeOk` the `encode_frame`;
`printlnOk` the `println!` of the done line (line 130); and `reportOk` the
driver `eprintln!` that reports this entry if its conversion fails
(line 158).  A failing `print!`, `println!` or `eprintln!` panics the
process, as does a failing flush through its `.expect`. -/
structure ConvEnv where
  decoded : Option (ℕ × ℕ)
  createOk : Bool
  printOk : Bool
  flushOk : Bool
  encodeOk : Bool
  printlnOk : Bool
  reportOk : Bool
deriving DecidableEq

/-- All console writes involved in processing one entry succeed. -/
def ConvEnv.consoleOk (env : ConvEnv) : Bool :=
  env.printOk && env.flushOk && env.printlnOk && env.reportOk

/-- Result of one `flip` call.  `ok` carries the final dimensions of the
encoded image; `err` the `Err(String)` message; `panicked` a process abort
from inside the call (a failing stdout write or the flush `.expect`). -/
inductive FlipResult where
  | ok (dims : ℕ × ℕ)
  | err (msg : String)
  | panicked (msg : String)
deriving DecidableEq

/-- Filesystem events a `flip` call or the batch driver can perform. -/
inductive FsEvent where
  | create (p : PathBuf)
  | writeFrame (p : PathBuf)
  | delete (p : PathBuf)
deriving DecidableEq

/-- The single-image converter `flip` (src/main.rs lines 65-133), as a pure
function of its effect environment: decode, crop, resize, output-path
computation, output creation, the progress print and its flush, encode, and
the done print.  The returned trace lists the filesystem writes in order.
The progress print happens after `File::create`, so both print panics and
the flush panic leave the created output file behind; the done-print panic
happens after the frame was encoded. -/
def flip (env : ConvEnv) (image_path : PathBuf) (scale : ℚ) (crop : ℕ) :
    FlipResult × List FsEvent :=
  match env.decoded with
  | none =>
      (FlipResult.err ("failed to open image: `" ++ image_path.display ++ "` :("), [])
  | some (w0, h0) =>
      match cropStep w0 h0 crop with
      | Except.error msg => (FlipResult.err msg, [])
      | Except.ok (w, h) =>
          let dims := resizeStep w h scale
          let output_path := image_path.set_extension "gif"
          if env.createOk then
            if env.printOk then
              if env.flushOk then
                if env.encodeOk then
                  if env.printlnOk then
                    (FlipResult.ok dims,
                      [FsEvent.create output_path, FsEvent.writeFrame output_path])
                  else
                    (FlipResult.panicked "failed printing to stdout",
                      [FsEvent.create output_path, FsEvent.writeFrame output_path])
                else
                  (FlipResult.err
                    ("failed to encode image: `" ++ image_path.display ++ "` :("),
                    [FsEvent.create output_path])
              else
                (FlipResult.panicked "whoops...", [FsEvent.create output_path])
            else
              (FlipResult.panicked "failed printing to stdout",
                [FsEvent.create output_path])
          else
            (FlipResult.err
              ("failed to create output file: `" ++ output_path.display ++ "` :("), [])

/-- The conversion loop of `main` (src/main.rs lines 152-160): each resolved
path is converted in order; successes are pushed onto the `destroy` list;
a failure message is reported with `eprintln!`, which itself panics when the
stderr write fails.  A panic — inside `flip` or from the failure report —
aborts the loop: the third component records whether the run died.
Returns (outcomes, destroy list, died). -/
def runLoop (scale : ℚ) (crop : ℕ) :
    List (PathBuf × ConvEnv) → List (FlipResult × List FsEvent) × List PathBuf × Bool
  | [] => ([], [], false)
  | (p, env) :: rest =>
      match flip env p scale crop with
      | (FlipResult.panicked m, evs) => ([(FlipResult.panicked m, evs)], [], true)
      | (FlipResult.ok d, evs) =>
          let r := runLoop scale crop rest
          ((FlipResult.ok d, evs) :: r.1, p :: r.2.1, r.2.2)
      | (FlipResult.err m, evs) =>
          if env.reportOk then
            let r := runLoop scale crop rest
            ((FlipResult.err m, evs) :: r.1, r.2.1, r.2.2)
          else ([(FlipResult.err m, evs)], [], true)

/-- The deletion pass of `main` (src/main.rs lines 163-173):
`std::fs::remove_file` is attempted for each recorded candidate in order
(`deleteOk p` tells whether it succeeds); a failed removal is reported with
`eprintln!` (line 166), which panics when the stderr write fails
(`reportOk p`), aborting the remaining deletions.  Returns the attempted
deletions with their outcomes, and whether the pass died. -/
def deleteLoop (deleteOk reportOk : PathBuf → Bool) :
    List PathBuf → List (PathBuf × Bool) × Bool
  | [] => ([], false)
  | p :: rest =>
      if deleteOk p then
        let r := deleteLoop deleteOk reportOk rest
        ((p, true) :: r.1, r.2)
      else if reportOk p then
        let r := deleteLoop deleteOk reportOk rest
        ((p, false) :: r.1, r.2)
      else ([(p, false)], true)

/-- Observable result of one whole run of `main`. -/
structure RunReport where
  outcomes : List (FlipResult × List FsEvent)
  died : Bool
  candidates : List PathBuf
  count : ℕ
  deletions : List (PathBuf × Bool)
  deleteDied : Bool

/-- `main` (src/main.rs lines 135-177) over an already-resolved list of glob
entries: the scale is clamped to at most 10.0, every entry is converted in
order, the success count `n` is taken before any deletion, and when the
destroy flag is set the deletion pass runs over the recorded candidates.
If the conversion loop panicked the run dies there. -/
def mainRun (entries : List (PathBuf × ConvEnv)) (deleteOk reportOk : PathBuf → Bool)
    (destroy : Bool) (scale : ℚ) (crop : ℕ) : RunReport :=
  let s := min scale 10
  let res := runLoop s crop entries
  if res.2.2 then
    { outcomes := res.1, died := true, candidates := res.2.1, count := 0,
      deletions := [], deleteDied := false }
  else
    let del := if destroy then deleteLoop deleteOk reportOk res.2.1 else ([], false)
    { outcomes := res.1, died := false, candidates := res.2.1,
      count := res.2.1.length, deletions := del.1, deleteDied := del.2 }

/-- Whether a flip result is a success. -/
def FlipResult.isOk : FlipResult → Bool
  | FlipResult.ok _ => true
  | _ => false

/-- Whether a flip result is a returned failure. -/
def FlipResult.isErr : FlipResult → Bool
  | FlipResult.err _ => true
  | _ => false

/-! ## Helper lemmas: the f32 model -/

/-- Ties-to-even rounding is the identity on integers. -/
theorem roundNearestEven_intCast (z : ℤ) : roundNearestEven ((z : ℚ)) = z := by
  unfold roundNearestEven
  rw [Int.floor_intCast]
  norm_num

/-- Exact representation: a dyadic rational with a significand of at most
24 bits is an f32 value, so binary32 rounding leaves it unchanged. -/
theorem toF32_dyadic (n : ℕ) (z : ℤ) (hn : n ≤ 2 ^ 24) :
    toF32 ((n : ℚ) * 2 ^ z) = (n : ℚ) * 2 ^ z := by
  rcases Nat.eq_zero_or_pos n with h0 | hpos
  · subst h0; simp [toF32]
  have hq0 : (0:ℚ) < (n : ℚ) * 2 ^ z := by positivity
  have habs : |(n : ℚ) * 2 ^ z| = (n : ℚ) * 2 ^ z := abs_of_pos hq0
  unfold toF32
  rw [if_neg (ne_of_gt hq0), habs]
  set e : ℤ := Int.log 2 ((n : ℚ) * 2 ^ z) with he
  have hlow : (2:ℚ) ^ e ≤ (n : ℚ) * 2 ^ z := by
    have := Int.zpow_log_le_self (R := ℚ) (b := 2) (by norm_num) hq0
    rw [← he] at this
    exact_mod_cast this
  have hhigh : (n : ℚ) * 2 ^ z < (2:ℚ) ^ (e + 1) := by
    have := Int.lt_zpow_succ_log_self (R := ℚ) (b := 2) (by norm_num) ((n : ℚ) * 2 ^ z)
    rw [← he] at this
    exact_mod_cast this
  have h2z : (0:ℚ) < 2 ^ z := by positivity
  have hlow2 : (2:ℚ) ^ (e - z) ≤ (n : ℚ) := by
    rw [zpow_sub₀ (by norm_num : (2:ℚ) ≠ 0), div_le_iff₀ h2z]
    exact hlow
  have hhigh2 : (n : ℚ) < (2:ℚ) ^ (e - z + 1) := by
    have hrw : (2:ℚ) ^ (e - z + 1) = 2 ^ (e + 1) / 2 ^ z := by
      rw [← zpow_sub₀ (by norm_num : (2:ℚ) ≠ 0)]
      congr 1
      omega
    rw [hrw, lt_div_iff₀ h2z]
    exact hhigh
  have ht0 : 0 ≤ e - z := by
    by_contra hneg
    push_neg at hneg
    have h1 : (2:ℚ) ^ (e - z + 1) ≤ 2 ^ (0:ℤ) :=
      zpow_le_zpow_right₀ (by norm_num) (by omega)
    have h2 : (n:ℚ) < 1 := lt_of_lt_of_le hhigh2 (by simpa using h1)
    have h3 : (1:ℚ) ≤ (n:ℚ) := by exact_mod_cast hpos
    linarith
  have ht24 : e - z ≤ 24 := by
    by_contra h25
    push_neg at h25
    have h1 : (2:ℚ) ^ (25:ℤ) ≤ 2 ^ (e - z) :=
      zpow_le_zpow_right₀ (by norm_num) (by omega)
    have h2 : (2:ℚ) ^ (25:ℤ) ≤ (n : ℚ) := le_trans h1 hlow2
    have h3 : (n : ℚ) ≤ (2:ℚ) ^ (24:ℤ) := by
      have h4 : ((2:ℚ) ^ (24:ℤ)) = ((16777216 : ℕ) : ℚ) := by norm_num
      rw [h4]
      exact_mod_cast le_trans hn (by norm_num)
    have : (2:ℚ) ^ (25:ℤ) ≤ (2:ℚ) ^ (24:ℤ) := le_trans h2 h3
    norm_num at this
  rcases lt_or_eq_of_le ht24 with ht23 | ht24eq
  · -- e - z ≤ 23 : the scaled significand is n shifted left, a natural
    set k : ℕ := (23 - (e - z)).toNat with hk
    have hkz : (k : ℤ) = 23 - (e - z) := by
      rw [hk]
      omega
    have hqS : ((n : ℚ) * 2 ^ z) / 2 ^ (e - 23) = ((n * 2 ^ k : ℕ) : ℚ) := by
      push_cast
      rw [div_eq_iff (by positivity : ((2:ℚ) ^ (e-23)) ≠ 0)]
      rw [← zpow_natCast (2:ℚ) k, hkz, mul_assoc, ← zpow_add₀ (by norm_num : (2:ℚ) ≠ 0)]
      congr 1
      ring
    rw [hqS]
    have hr : roundNearestEven ((n * 2 ^ k : ℕ) : ℚ) = ((n * 2 ^ k : ℕ) : ℤ) := by
      exact_mod_cast roundNearestEven_intCast ((n * 2 ^ k : ℕ) : ℤ)
    rw [hr]
    push_cast
    rw [← zpow_natCast (2:ℚ) k, hkz, mul_assoc, ← zpow_add₀ (by norm_num : (2:ℚ) ≠ 0)]
    congr 1
    ring
  · -- e - z = 24 : then n = 2^24 and the scaled significand is 2^23
    have hn24 : (n : ℚ) = (2:ℚ) ^ (24:ℤ) := by
      have h1 : (2:ℚ) ^ (24:ℤ) ≤ (n:ℚ) := by rw [ht24eq] at hlow2; exact hlow2
      have h2 : (n : ℚ) ≤ (2:ℚ) ^ (24:ℤ) := by
        have h4 : ((2:ℚ) ^ (24:ℤ)) = ((16777216 : ℕ) : ℚ) := by norm_num
        rw [h4]
        exact_mod_cast le_trans hn (by norm_num)
      exact le_antisymm h2 h1
    have hc : ((2 ^ 23 : ℕ) : ℚ) = (2:ℚ) ^ (23:ℤ) := by norm_num
    have hqS : ((n : ℚ) * 2 ^ z) / 2 ^ (e - 23) = ((2 ^ 23 : ℕ) : ℚ) := by
      rw [hn24, hc, div_eq_iff (by positivity : ((2:ℚ) ^ (e-23)) ≠ 0),
        ← zpow_add₀ (by norm_num : (2:ℚ) ≠ 0), ← zpow_add₀ (by norm_num : (2:ℚ) ≠ 0)]
      congr 1
      omega
    rw [hqS]
    have hr : roundNearestEven ((2 ^ 23 : ℕ) : ℚ) = ((2 ^ 23 : ℕ) : ℤ) := by
      exact_mod_cast roundNearestEven_intCast ((2 ^ 23 : ℕ) : ℤ)
    rw [hr]
    have hc2 : ((((2 ^ 23 : ℕ) : ℤ)) : ℚ) = (2:ℚ) ^ (23:ℤ) := by norm_num
    rw [hc2, hn24, ← zpow_add₀ (by norm_num : (2:ℚ) ≠ 0),
      ← zpow_add₀ (by norm_num : (2:ℚ) ≠ 0)]
    congr 1
    omega

/-- Natural numbers up to `2^24` are exactly representable in f32. -/
theorem toF32_natCast (n : ℕ) (hn : n ≤ 2 ^ 24) : toF32 ((n : ℚ)) = n := by
  have := toF32_dyadic n 0 hn
  simpa using this

/-- A rational equal to a dyadic with at most a 24-bit significand is left
unchanged by binary32 rounding. -/
theorem toF32_eq_self (q : ℚ) (n : ℕ) (z : ℤ) (hq : q = (n : ℚ) * 2 ^ z)
    (hn : n ≤ 2 ^ 24) : toF32 q = q := by
  rw [hq]
  exact toF32_dyadic n z hn

/-- `2^24 + 1` is not representable in f32: it rounds (tie to the even
significand) down to `2^24`. -/
theorem toF32_16777217 : toF32 16777217 = 16777216 := by
  have hlog : Int.log 2 |(16777217:ℚ)| = 24 := by
    rw [abs_of_pos (by norm_num)]
    rw [show ((16777217:ℚ)) = ((16777217:ℕ):ℚ) by norm_num, Int.log_natCast]
    have : Nat.log 2 16777217 = 24 :=
      Nat.log_eq_of_pow_le_of_lt_pow (by norm_num) (by norm_num)
    exact_mod_cast this
  unfold toF32
  rw [if_neg (by norm_num), hlog]
  norm_num
  have hfl : ⌊(16777217:ℚ) / 2⌋ = 8388608 := by
    rw [Int.floor_eq_iff]
    constructor
    · norm_num
    · norm_num
  have hrne : roundNearestEven ((16777217:ℚ) / 2) = 8388608 := by
    unfold roundNearestEven
    rw [hfl]
    norm_num
  rw [hrne]
  norm_num

/-! ## Helper lemmas: geometry -/

/-- `rustRound` of a nonnegative rational bounded by a natural number `b`
stays bounded by `b`. -/
theorem rustRound_le_nat (q : ℚ) (b : ℕ) (hq : 0 ≤ q) (hb : q ≤ (b:ℚ)) :
    rustRound q ≤ (b:ℤ) := by
  unfold rustRound
  rw [if_neg (not_lt.mpr hq), round_eq]
  have h1 : ⌊q + 1/2⌋ ≤ ⌊(b:ℚ) + 1/2⌋ := Int.floor_mono (by linarith)
  have h2 : ⌊(b:ℚ) + 1/2⌋ = (b:ℤ) := by
    rw [Int.floor_eq_iff]
    constructor
    · push_cast; linarith
    · push_cast; linarith
  omega

/-- The aspect-preserving fit never exceeds the requested bounding box (for
a box with both edges in `[1, u32::MAX]`), and both produced edges are at
least 1. -/
theorem resize_dimensions_fits (w h bw bh : ℕ) (hw : 1 ≤ w) (hh : 1 ≤ h)
    (hbw : 1 ≤ bw) (hbh : 1 ≤ bh) (hbwU : bw ≤ U32MAX) (hbhU : bh ≤ U32MAX) :
    (resize_dimensions w h bw bh).1 ≤ bw ∧ (resize_dimensions w h bw bh).2 ≤ bh ∧
      1 ≤ (resize_dimensions w h bw bh).1 ∧ 1 ≤ (resize_dimensions w h bw bh).2 := by
  have hwq : (0:ℚ) < (w:ℚ) := by exact_mod_cast hw
  have hhq : (0:ℚ) < (h:ℚ) := by exact_mod_cast hh
  have hwr : (w:ℚ) * min ((bw:ℚ)/(w:ℚ)) ((bh:ℚ)/(h:ℚ)) ≤ (bw:ℚ) := by
    calc (w:ℚ) * min ((bw:ℚ)/(w:ℚ)) ((bh:ℚ)/(h:ℚ))
        ≤ (w:ℚ) * ((bw:ℚ)/(w:ℚ)) :=
          mul_le_mul_of_nonneg_left (min_le_left _ _) (le_of_lt hwq)
      _ = (bw:ℚ) := by field_simp
  have hhr : (h:ℚ) * min ((bw:ℚ)/(w:ℚ)) ((bh:ℚ)/(h:ℚ)) ≤ (bh:ℚ) := by
    calc (h:ℚ) * min ((bw:ℚ)/(w:ℚ)) ((bh:ℚ)/(h:ℚ))
        ≤ (h:ℚ) * ((bh:ℚ)/(h:ℚ)) :=
          mul_le_mul_of_nonneg_left (min_le_right _ _) (le_of_lt hhq)
      _ = (bh:ℚ) := by field_simp
  have h1 : rustRound ((w:ℚ) * min ((bw:ℚ)/(w:ℚ)) ((bh:ℚ)/(h:ℚ))) ≤ (bw:ℤ) :=
    rustRound_le_nat _ _ (by positivity) hwr
  have h2 : rustRound ((h:ℚ) * min ((bw:ℚ)/(w:ℚ)) ((bh:ℚ)/(h:ℚ))) ≤ (bh:ℤ) :=
    rustRound_le_nat _ _ (by positivity) hhr
  have hnw : max (rustRound ((w:ℚ) * min ((bw:ℚ)/(w:ℚ)) ((bh:ℚ)/(h:ℚ)))).toNat 1 ≤ bw := by
    omega
  have hnh : max (rustRound ((h:ℚ) * min ((bw:ℚ)/(w:ℚ)) ((bh:ℚ)/(h:ℚ)))).toNat 1 ≤ bh := by
    omega
  simp only [resize_dimensions]
  rw [if_neg (by simp only [U32MAX] at hbwU ⊢; omega)]
  rw [if_neg (by simp only [U32MAX] at hbhU ⊢; omega)]
  exact ⟨hnw, hnh, le_max_right _ _, le_max_right _ _⟩

/-- The bounding-box edge computed by `flip` never exceeds `u32::MAX`. -/
theorem resizeTarget_le_U32MAX (d : ℕ) (s : ℚ) : resizeTarget d s ≤ U32MAX := by
  unfold resizeTarget roundToU32
  simp only [U32MAX]
  omega

/-- At scale 1 the computed bounding-box edge equals the dimension whenever
the dimension is f32-exact (at most `2^24`) and at least 2. -/
theorem resizeTarget_one (d : ℕ) (hdU : d ≤ 16777216) (hd2 : 2 ≤ d) :
    resizeTarget d 1 = d := by
  have h1 : toF32 ((d : ℚ)) = d := toF32_natCast d (by norm_num; omega)
  unfold resizeTarget
  rw [mul_one, h1, h1]
  unfold roundToU32 rustRound
  rw [if_neg (not_lt.mpr (by positivity)), round_natCast]
  have h2 : min (d : ℤ) (U32MAX : ℤ) = (d : ℤ) := by
    simp only [U32MAX]
    omega
  rw [h2]
  simp only [Int.toNat_natCast]
  omega

/-- Box edge for a width of 2 at (f32) scale 0.75: the product 1.5 is exact
in f32 and rounds (half away from zero) to 2, the floor keeps 2. -/
theorem resizeTarget_two_at_34 : resizeTarget 2 (3/4) = 2 := by
  have h2 : toF32 ((2:ℚ)) = 2 := by
    have := toF32_natCast 2 (by norm_num)
    simpa using this
  have h32 : toF32 (3/2) = 3/2 :=
    toF32_eq_self (3/2) 3 (-1) (by rw [zpow_neg, zpow_one]; norm_num) (by norm_num)
  unfold resizeTarget
  push_cast
  rw [h2, show (2:ℚ) * (3/4) = 3/2 by norm_num, h32]
  norm_num [roundToU32, rustRound, round_eq, U32MAX]
  omega

/-- Box edge for a height of 3 at (f32) scale 0.75: the product 2.25 is
exact in f32 and rounds to 2. -/
theorem resizeTarget_three_at_34 : resizeTarget 3 (3/4) = 2 := by
  have h3 : toF32 ((3:ℚ)) = 3 := by
    have := toF32_natCast 3 (by norm_num)
    simpa using this
  have h94 : toF32 (9/4) = 9/4 :=
    toF32_eq_self (9/4) 9 (-2) (by norm_num [zpow_neg]) (by norm_num)
  unfold resizeTarget
  push_cast
  rw [h3, show (3:ℚ) * (3/4) = 9/4 by norm_num, h94]
  norm_num [roundToU32, rustRound, round_eq, U32MAX]
  omega

/-- Box edge for a width of `2^24 + 1` at scale 1: the f32 conversion of the
dimension already loses the last bit. -/
theorem resizeTarget_16777217_at_one : resizeTarget 16777217 1 = 16777216 := by
  have h1 : toF32 ((16777217:ℚ)) = 16777216 := toF32_16777217
  have h2 : toF32 ((16777216:ℚ)) = 16777216 := by
    have := toF32_natCast 16777216 (by norm_num)
    simpa using this
  unfold resizeTarget
  push_cast
  rw [h1, mul_one, h2]
  norm_num [roundToU32, rustRound, round_eq, U32MAX]
  omega

/-! ## Helper lemmas: converter and loops -/

/-- Any flip call whose three stdout writes (progress print, flush, done
print) succeed ends in a returned result, never in a panic. -/
theorem flip_no_panic (env : ConvEnv) (p : PathBuf) (s : ℚ) (c : ℕ)
    (hp : env.printOk = true) (hf : env.flushOk = true) (hl : env.printlnOk = true) :
    (∃ d evs, flip env p s c = (FlipResult.ok d, evs)) ∨
    (∃ m evs, flip env p s c = (FlipResult.err m, evs)) := by
  rcases henv : env.decoded with _ | ⟨w, h⟩
  · exact Or.inr ⟨"failed to open image: `" ++ p.display ++ "` :(", [],
      by simp [flip, henv]⟩
  · rcases hcs : cropStep w h c with m | ⟨w2, h2⟩
    · exact Or.inr ⟨m, [], by simp [flip, henv, hcs]⟩
    · by_cases hco : env.createOk = true
      · by_cases hen : env.encodeOk = true
        · exact Or.inl ⟨resizeStep w2 h2 s,
            [FsEvent.create (p.set_extension "gif"),
             FsEvent.writeFrame (p.set_extension "gif")],
            by simp [flip, henv, hcs, hco, hp, hf, hen, hl]⟩
        · exact Or.inr ⟨"failed to encode image: `" ++ p.display ++ "` :(",
            [FsEvent.create (p.set_extension "gif")],
            by simp [flip, henv, hcs, hco, hp, hf, hen]⟩
      · exact Or.inr ⟨"failed to create output file: `" ++
            (p.set_extension "gif").display ++ "` :(", [],
            by simp [flip, henv, hcs, hco]⟩

/-- Accounting for the conversion loop: when every console write succeeds
the loop never dies, produces one outcome per entry, and the destroy list is
exactly the succeeded source paths in order. -/
theorem runLoop_spec (s : ℚ) (c : ℕ) (entries : List (PathBuf × ConvEnv))
    (hcon : ∀ e ∈ entries, e.2.consoleOk = true) :
    (runLoop s c entries).2.2 = false ∧
    (runLoop s c entries).1.length = entries.length ∧
    (runLoop s c entries).2.1 =
      entries.filterMap
        (fun e => if (flip e.2 e.1 s c).1.isOk then some e.1 else none) ∧
    (runLoop s c entries).2.1.length +
      (entries.filter (fun e => (flip e.2 e.1 s c).1.isErr)).length =
      entries.length := by
  induction entries with
  | nil => simp [runLoop]
  | cons e rest ih =>
    obtain ⟨p, env⟩ := e
    have hfp := hcon _ (List.mem_cons_self _ _)
    simp only [ConvEnv.consoleOk, Bool.and_eq_true] at hfp
    obtain ⟨⟨⟨hp, hf⟩, hl⟩, hr⟩ := hfp
    obtain ⟨hdied, hlen, hdest, hcount⟩ :=
      ih (fun x hx => hcon x (List.mem_cons_of_mem _ hx))
    rcases flip_no_panic env p s c hp hf hl with ⟨d, evs, heq⟩ | ⟨m, evs, heq⟩
    · refine ⟨?_, ?_, ?_, ?_⟩
      · simpa [runLoop, heq] using hdied
      · simpa [runLoop, heq] using hlen
      · simpa [runLoop, heq, List.filterMap_cons, FlipResult.isOk] using hdest
      · simp only [runLoop, heq, List.filter_cons, List.length_cons]
        have hno : (FlipResult.ok d).isErr = false := rfl
        simp only [hno, Bool.false_eq_true, if_false]
        omega
    · refine ⟨?_, ?_, ?_, ?_⟩
      · simpa [runLoop, heq, hr] using hdied
      · simpa [runLoop, heq, hr] using hlen
      · simpa [runLoop, heq, hr, List.filterMap_cons, FlipResult.isOk] using hdest
      · simp only [runLoop, heq, hr, List.filter_cons, List.length_cons, if_true]
        have hye : (FlipResult.err m).isErr = true := rfl
        simp only [hye, if_true, List.length_cons]
        omega

/-- When every stderr report write succeeds, the deletion pass attempts
every candidate in order and never dies. -/
theorem deleteLoop_spec (deleteOk reportOk : PathBuf → Bool) (l : List PathBuf)
    (hrep : ∀ p ∈ l, reportOk p = true) :
    deleteLoop deleteOk reportOk l = (l.map (fun p => (p, deleteOk p)), false) := by
  induction l with
  | nil => simp [deleteLoop]
  | cons p rest ih =>
    have hrp : reportOk p = true := hrep _ (List.mem_cons_self _ _)
    have ihh := ih (fun x hx => hrep x (List.mem_cons_of_mem _ hx))
    by_cases hd : deleteOk p = true
    · simp [deleteLoop, hd, ihh]
    · have hd2 : deleteOk p = false := by simpa using hd
      simp [deleteLoop, hd2, hrp, ihh]

/-- The deletion pass always records an attempt for the first candidate. -/
theorem deleteLoop_singleton (deleteOk reportOk : PathBuf → Bool) (p : PathBuf) :
    (deleteLoop deleteOk reportOk [p]).1 = [(p, deleteOk p)] := by
  by_cases hd : deleteOk p = true
  · simp [deleteLoop, hd]
  · have hd2 : deleteOk p = false := by simpa using hd
    by_cases hrp : reportOk p = true
    · simp [deleteLoop, hd2, hrp]
    · have hr2 : reportOk p = false := by simpa using hrp
      simp [deleteLoop, hd2, hr2]

/-! ## Geometry claims -/

/-- C2: for every u32-sized image `(w, h)` and crop margin `c > 0` with
`2*c < min w h` (so the doubled margin cannot wrap), the crop step removes
`c` pixels from each of the four sides: the post-crop dimensions are exactly
`(w - 2*c, h - 2*c)`. -/
theorem cropStep_small_margin (w h c : ℕ) (hc : 0 < c) (hlt : 2 * c < min w h)
    (hwU : w ≤ U32MAX) (hhU : h ≤ U32MAX) :
    cropStep w h c = Except.ok (w - 2 * c, h - 2 * c) := by
  have hw : 2 * c < w := lt_of_lt_of_le hlt (min_le_left _ _)
  have hh : 2 * c < h := lt_of_lt_of_le hlt (min_le_right _ _)
  simp only [U32MAX] at hwU hhU
  have hmod : wrap32 (2 * c) = 2 * c := Nat.mod_eq_of_lt (by omega)
  simp only [cropStep, cropDims, hmod, if_pos hc]
  rw [if_pos ⟨by omega, by omega⟩]
  simp only [Except.ok.injEq, Prod.mk.injEq]
  omega

/-- C2 witness: a 10×8 image with crop margin 2 is cropped to 6×4. -/
theorem cropStep_small_margin_witness :
    0 < 2 ∧ 2 * 2 < min 10 8 ∧ cropStep 10 8 2 = Except.ok (6, 4) :=
  ⟨by decide, by decide,
   cropStep_small_margin 10 8 2 (by decide) (by decide) (by decide) (by decide)⟩

/-- C3 counterexample: the too-large-crop rejection can be bypassed by u32
wrap-around.  With crop margin `2^31` on a 100×100 image the doubled margin
wraps to 0 in release builds, the crop silently degenerates to an empty
image (the crate clamp yields 0×0, resized up to 1×1), and the conversion
SUCCEEDS, creating and encoding an output file — no Failure outcome,
contradicting the claim for `2*c ≥ w`. -/
theorem crop_wrap_no_rejection_cex :
    100 ≤ 2 * 2147483648 ∧
    flip ⟨some (100, 100), true, true, true, true, true, true⟩
      ⟨"img", some "png"⟩ 1 2147483648 =
      (FlipResult.ok (1, 1),
        [FsEvent.create ⟨"img", some "gif"⟩, FsEvent.writeFrame ⟨"img", some "gif"⟩]) := by
  refine ⟨by norm_num, ?_⟩
  have hcrop : cropStep 100 100 2147483648 = Except.ok (0, 0) := by rfl
  have hrt : resizeTarget 0 1 = 2 := by
    have h0 : toF32 0 = 0 := by simp [toF32]
    unfold resizeTarget
    push_cast
    rw [h0, zero_mul, h0]
    norm_num [roundToU32, rustRound, round_eq, U32MAX]
  have hrs : resizeStep 0 0 1 = (1, 1) := by
    rw [resizeStep]
    simp only [hrt]
    rw [if_neg (by omega)]
    norm_num [resize_dimensions, rustRound, round_eq, U32MAX]
  simp [flip, hcrop, hrs, PathBuf.set_extension]

/-- C3 (amended): for every decoded image of dimensions `(w, h)` and crop
margin `c > 0` whose doubled value does not wrap u32 (`2*c ≤ u32::MAX`),
with `2*c ≥ w` or `2*c ≥ h`, the conversion returns a Failure outcome whose
reason describes the rejection, and the event trace is empty: the failure is
produced before any file creation.  (For `2*c` beyond `u32::MAX` the doubled
margin wraps in release builds and the rejection can be bypassed; debug
builds panic on the overflow.) -/
theorem flip_rejects_large_crop (env : ConvEnv) (p : PathBuf) (s : ℚ) (w h c : ℕ)
    (hd : env.decoded = some (w, h)) (hc : 0 < c) (hcU : 2 * c ≤ U32MAX)
    (hbig : w ≤ 2 * c ∨ h ≤ 2 * c) :
    flip env p s c =
      (FlipResult.err ("crop value " ++ toString c ++
        " too large for image dimensions " ++ toString w ++ "x" ++ toString h ++
        ", skipping crop"), []) := by
  simp only [U32MAX] at hcU
  have hmod : wrap32 (2 * c) = 2 * c := Nat.mod_eq_of_lt (by omega)
  have hcs : cropStep w h c = Except.error ("crop value " ++ toString c ++
      " too large for image dimensions " ++ toString w ++ "x" ++ toString h ++
      ", skipping crop") := by
    simp only [cropStep, hmod]
    rw [if_pos hc, if_neg (by omega)]
  simp [flip, hd, hcs]

/-- C3 witness: crop margin 50 on an 80×80 image is rejected with no file
touched. -/
theorem flip_rejects_large_crop_witness :
    flip ⟨some (80, 80), true, true, true, true, true, true⟩ ⟨"img", some "png"⟩ 1 50 =
      (FlipResult.err ("crop value " ++ toString 50 ++
        " too large for image dimensions " ++ toString 80 ++ "x" ++ toString 80 ++
        ", skipping crop"), []) :=
  flip_rejects_large_crop ⟨some (80, 80), true, true, true, true, true, true⟩
    ⟨"img", some "png"⟩ 1 80 80 50 rfl (by decide) (by decide) (by decide)

/-- C4 counterexample: the resized dimensions are NOT always
`(max 2 (round (w*s)), max 2 (round (h*s)))`.  For a (post-crop) 2×3 image
at scale 0.75 (exactly representable in f32, so the f32 arithmetic is exact
here) the formula gives the box `(2, 2)`, but `DynamicImage::resize`
preserves the 2:3 aspect ratio within that box and produces a 1×2 image —
which even drops below the claimed minimum of 2. -/
theorem resize_not_exact_cex :
    resizeStep 2 3 (3/4) = (1, 2) ∧
    (resizeTarget 2 (3/4), resizeTarget 3 (3/4)) = (2, 2) ∧
    ((1, 2) : ℕ × ℕ) ≠ (2, 2) := by
  refine ⟨?_, by rw [resizeTarget_two_at_34, resizeTarget_three_at_34], by decide⟩
  rw [resizeStep]
  simp only [resizeTarget_two_at_34, resizeTarget_three_at_34]
  rw [if_neg (by omega)]
  norm_num [resize_dimensions, rustRound, round_eq, U32MAX]
  omega

/-- C4 (amended): for every (post-crop) image with `w, h ≥ 1` and every
scale factor, the bounding box handed to the resampler is exactly
`(max 2 (u32 (round (f32 (f32 w · s)))), max 2 (u32 (round (f32 (f32 h · s)))))`,
each axis computed independently in f32 arithmetic (this is `resizeTarget`);
the resized image fits inside that box (componentwise `≤`) and keeps both
dimensions at least 1, but — the resize preserving aspect ratio — need not
equal the box. -/
theorem resizeStep_fits (w h : ℕ) (s : ℚ) (hw : 1 ≤ w) (hh : 1 ≤ h) :
    2 ≤ resizeTarget w s ∧ 2 ≤ resizeTarget h s ∧
      (resizeStep w h s).1 ≤ resizeTarget w s ∧ (resizeStep w h s).2 ≤ resizeTarget h s ∧
      1 ≤ (resizeStep w h s).1 ∧ 1 ≤ (resizeStep w h s).2 := by
  have hbw2 : 2 ≤ resizeTarget w s := le_max_right _ _
  have hbh2 : 2 ≤ resizeTarget h s := le_max_right _ _
  refine ⟨hbw2, hbh2, ?_⟩
  simp only [resizeStep]
  split_ifs with hif
  · simp only
    omega
  · exact resize_dimensions_fits w h _ _ hw hh (by omega) (by omega)
      (resizeTarget_le_U32MAX w s) (resizeTarget_le_U32MAX h s)

/-- C4 witness: the amended statement at a 2×3 image and scale 0.75. -/
theorem resizeStep_fits_witness :
    2 ≤ resizeTarget 2 (3/4) ∧ 2 ≤ resizeTarget 3 (3/4) ∧
      (resizeStep 2 3 (3/4)).1 ≤ resizeTarget 2 (3/4) ∧
      (resizeStep 2 3 (3/4)).2 ≤ resizeTarget 3 (3/4) ∧
      1 ≤ (resizeStep 2 3 (3/4)).1 ∧ 1 ≤ (resizeStep 2 3 (3/4)).2 :=
  resizeStep_fits 2 3 (3/4) (by decide) (by decide)

/-- C5 counterexample: scale 1.0 is NOT dimension-preserving for every image
with both dimensions at least 2.  A `16777217 × 2` image (width `2^24 + 1`)
loses its last bit in the f32 conversion: the resize box becomes
`16777216 × 2` and the output width is 16777216. -/
theorem scale_one_f32_cex :
    2 ≤ 16777217 ∧ 2 ≤ 2 ∧
    resizeStep 16777217 2 1 = (16777216, 2) ∧
    ((16777216, 2) : ℕ × ℕ) ≠ (16777217, 2) := by
  refine ⟨by norm_num, le_refl 2, ?_, by decide⟩
  have ht2 : resizeTarget 2 1 = 2 := resizeTarget_one 2 (by norm_num) (by norm_num)
  rw [resizeStep]
  simp only [resizeTarget_16777217_at_one, ht2]
  rw [if_neg (by omega)]
  norm_num [resize_dimensions, rustRound, round_eq, U32MAX]
  omega

/-- C5 (amended): geometry is the identity at the identity settings within
the f32-exact range.  Crop margin 0 is a pass-through for every image (never
an error), and scale 1.0 leaves the dimensions unchanged as soon as both are
at least 2 and at most `2^24` (the range in which a u32 dimension is exactly
representable in f32; above it the f32 conversion itself can change the
dimension). -/
theorem geometry_identity (w h : ℕ) (hw2 : 2 ≤ w) (hh2 : 2 ≤ h)
    (hwU : w ≤ 16777216) (hhU : h ≤ 16777216) :
    (∀ a b : ℕ, cropStep a b 0 = Except.ok (a, b)) ∧ resizeStep w h 1 = (w, h) := by
  refine ⟨fun a b => by simp [cropStep], ?_⟩
  simp [resizeStep, resizeTarget_one w hwU hw2, resizeTarget_one h hhU hh2]

/-- C5 witness: crop 0 and scale 1 leave a 640×480 image at 640×480. -/
theorem geometry_identity_witness :
    cropStep 640 480 0 = Except.ok (640, 480) ∧ resizeStep 640 480 1 = (640, 480) :=
  ⟨(geometry_identity 640 480 (by decide) (by decide) (by decide) (by decide)).1 640 480,
   (geometry_identity 640 480 (by decide) (by decide) (by decide) (by decide)).2⟩

/-! ## Single-image converter claims -/

/-- C6 counterexample: a converter step CAN terminate the process.  With a
decodable 4×4 image, a successful `File::create` and progress print but a
failing stdout flush, the `.expect("whoops...")` panics (after the output
file was already created). -/
theorem flip_flush_panic_cex :
    flip ⟨some (4, 4), true, true, false, true, true, true⟩ ⟨"img", some "png"⟩ 1 0 =
      (FlipResult.panicked "whoops...",
       [FsEvent.create ⟨"img", some "gif"⟩]) := by
  simp [flip, cropStep, PathBuf.set_extension]

/-- C6 (amended): every decode, crop-rejection, output-creation and encode
failure is returned as a Failure outcome from the call — and provided the
three stdout writes of the call (the progress print, its flush, and the done
print) succeed, no call panics or exits the process: the result is always a
returned success or a returned failure.  (Each of those stdout writes is
panicking: the flush through its `.expect`, the two prints through the
panic of `print!`/`println!` on a failed stdout write; see the
counterexample for the flush.) -/
theorem flip_no_process_exit (env : ConvEnv) (p : PathBuf) (s : ℚ) (c : ℕ)
    (hp : env.printOk = true) (hf : env.flushOk = true) (hl : env.printlnOk = true) :
    (flip env p s c).1.isOk = true ∨ (flip env p s c).1.isErr = true := by
  rcases flip_no_panic env p s c hp hf hl with ⟨d, evs, heq⟩ | ⟨m, evs, heq⟩
  · left; rw [heq]; rfl
  · right; rw [heq]; rfl

/-- C6 witness: the amended statement at a concrete failing-encode call. -/
theorem flip_no_process_exit_witness :
    (flip ⟨some (4, 4), true, true, true, false, true, true⟩
      ⟨"img", some "png"⟩ 1 0).1.isOk = true ∨
    (flip ⟨some (4, 4), true, true, true, false, true, true⟩
      ⟨"img", some "png"⟩ 1 0).1.isErr = true :=
  flip_no_process_exit ⟨some (4, 4), true, true, true, false, true, true⟩
    ⟨"img", some "png"⟩ 1 0 rfl rfl rfl

/-- C7: when encoding fails after the output file has been created (the
progress print and flush having succeeded, in the order of the code), the
converter returns a Failure outcome whose reason names the source path, and
the trace shows the created output file with no later deletion: the
(possibly empty or truncated) output file is left on disk. -/
theorem flip_encode_failure_keeps_file (env : ConvEnv) (p : PathBuf) (s : ℚ)
    (c w h w2 h2 : ℕ)
    (hd : env.decoded = some (w, h)) (hcrop : cropStep w h c = Except.ok (w2, h2))
    (hc : env.createOk = true) (hpr : env.printOk = true) (hf : env.flushOk = true)
    (he : env.encodeOk = false) :
    flip env p s c =
      (FlipResult.err ("failed to encode image: `" ++ p.display ++ "` :("),
       [FsEvent.create (p.set_extension "gif")]) := by
  simp [flip, hd, hcrop, hc, hpr, hf, he]

/-- C7 witness: encode failure on a 4×4 image leaves `img.gif` created and
reports `img.png`. -/
theorem flip_encode_failure_keeps_file_witness :
    flip ⟨some (4, 4), true, true, true, false, true, true⟩ ⟨"img", some "png"⟩ 1 0 =
      (FlipResult.err ("failed to encode image: `" ++
        PathBuf.display ⟨"img", some "png"⟩ ++ "` :("),
       [FsEvent.create (PathBuf.set_extension ⟨"img", some "png"⟩ "gif")]) :=
  flip_encode_failure_keeps_file ⟨some (4, 4), true, true, true, false, true, true⟩
    ⟨"img", some "png"⟩ 1 0 4 4 4 4 rfl (by simp [cropStep]) rfl rfl rfl rfl

/-- C10: if decoding the input fails, the converter returns a Failure
outcome identifying that path, with an empty event trace: the filesystem is
entirely unchanged, in particular no output file was created. -/
theorem flip_decode_failure_no_write (env : ConvEnv) (p : PathBuf) (s : ℚ) (c : ℕ)
    (hd : env.decoded = none) :
    flip env p s c =
      (FlipResult.err ("failed to open image: `" ++ p.display ++ "` :("), []) := by
  simp [flip, hd]

/-- C10 witness: a concrete undecodable input produces only a Failure naming
`img.png` and no filesystem event. -/
theorem flip_decode_failure_no_write_witness :
    flip ⟨none, true, true, true, true, true, true⟩ ⟨"img", some "png"⟩ 1 0 =
      (FlipResult.err "failed to open image: `img.png` :(", []) := by
  rw [flip_decode_failure_no_write ⟨none, true, true, true, true, true, true⟩
    ⟨"img", some "png"⟩ 1 0 rfl]
  rfl

/-! ## Batch driver claims -/

/-- C1 counterexample: a per-item error CAN abort the loop.  With a healthy
stdout but a broken stderr, the first conversion failure (a decode failure
here) makes the reporting `eprintln!` panic: over two matched paths the run
dies after one outcome, so fewer than N outcomes are produced and the second
path is never processed. -/
theorem batch_report_panic_cex :
    (mainRun [(⟨"a", some "png"⟩, ⟨none, true, true, true, true, true, false⟩),
              (⟨"b", some "png"⟩, ⟨some (10, 10), true, true, true, true, true, true⟩)]
        (fun _ => true) (fun _ => true) false 1 0).died = true ∧
    (mainRun [(⟨"a", some "png"⟩, ⟨none, true, true, true, true, true, false⟩),
              (⟨"b", some "png"⟩, ⟨some (10, 10), true, true, true, true, true, true⟩)]
        (fun _ => true) (fun _ => true) false 1 0).outcomes.length = 1 := by
  have h1 : ∀ q : ℚ, flip ⟨none, true, true, true, true, true, false⟩
      ⟨"a", some "png"⟩ q 0 =
      (FlipResult.err ("failed to open image: `" ++
        PathBuf.display ⟨"a", some "png"⟩ ++ "` :("), []) := by
    intro q
    simp [flip]
  constructor
  · simp [mainRun, runLoop, h1]
  · simp [mainRun, runLoop, h1]

/-- C1 (amended): over `N` matched and resolved source paths of which `K`
fail conversion, provided every console write involved succeeds (the
progress prints and flush on stdout, the failure reports on stderr — any of
them panics the process when its write fails), the run reaches its summary,
exactly `N` conversion outcomes are produced — one per path, no returned
per-item failure aborts the loop — the summary count satisfies
`count = N - K`, and exactly the succeeded source paths (in order) are
recorded as deletion candidates. -/
theorem batch_outcome_accounting (entries : List (PathBuf × ConvEnv))
    (f rep : PathBuf → Bool) (destroy : Bool) (scale : ℚ) (c : ℕ)
    (hcon : ∀ e ∈ entries, e.2.consoleOk = true) :
    (mainRun entries f rep destroy scale c).died = false ∧
    (mainRun entries f rep destroy scale c).outcomes.length = entries.length ∧
    (mainRun entries f rep destroy scale c).candidates =
      entries.filterMap
        (fun e => if (flip e.2 e.1 (min scale 10) c).1.isOk then some e.1 else none) ∧
    (mainRun entries f rep destroy scale c).count +
      (entries.filter (fun e => (flip e.2 e.1 (min scale 10) c).1.isErr)).length =
      entries.length ∧
    (mainRun entries f rep destroy scale c).count =
      entries.length -
        (entries.filter (fun e => (flip e.2 e.1 (min scale 10) c).1.isErr)).length := by
  obtain ⟨hdied, hlen, hdest, hcount⟩ := runLoop_spec (min scale 10) c entries hcon
  refine ⟨?_, ?_, ?_, ?_, ?_⟩
  · simp [mainRun, hdied]
  · simp [mainRun, hdied, hlen]
  · simp [mainRun, hdied, hdest]
  · have h4 : (mainRun entries f rep destroy scale c).count =
        (runLoop (min scale 10) c entries).2.1.length := by
      simp [mainRun, hdied]
    rw [h4]
    omega
  · have h4 : (mainRun entries f rep destroy scale c).count =
        (runLoop (min scale 10) c entries).2.1.length := by
      simp [mainRun, hdied]
    rw [h4]
    omega

/-- C1 witness: a two-entry batch with one success and one decode failure
(all console writes succeeding) yields two outcomes, count 1, and only the
succeeded path as candidate. -/
theorem batch_outcome_accounting_witness :
    (mainRun [(⟨"a", some "png"⟩, ⟨some (10, 10), true, true, true, true, true, true⟩),
              (⟨"b", some "png"⟩, ⟨none, true, true, true, true, true, true⟩)]
        (fun _ => true) (fun _ => true) false 1 0).died = false ∧
    (mainRun [(⟨"a", some "png"⟩, ⟨some (10, 10), true, true, true, true, true, true⟩),
              (⟨"b", some "png"⟩, ⟨none, true, true, true, true, true, true⟩)]
        (fun _ => true) (fun _ => true) false 1 0).outcomes.length = 2 ∧
    (mainRun [(⟨"a", some "png"⟩, ⟨some (10, 10), true, true, true, true, true, true⟩),
              (⟨"b", some "png"⟩, ⟨none, true, true, true, true, true, true⟩)]
        (fun _ => true) (fun _ => true) false 1 0).candidates = [⟨"a", some "png"⟩] ∧
    (mainRun [(⟨"a", some "png"⟩, ⟨some (10, 10), true, true, true, true, true, true⟩),
              (⟨"b", some "png"⟩, ⟨none, true, true, true, true, true, true⟩)]
        (fun _ => true) (fun _ => true) false 1 0).count = 1 := by
  have h := batch_outcome_accounting
    [(⟨"a", some "png"⟩, ⟨some (10, 10), true, true, true, true, true, true⟩),
     (⟨"b", some "png"⟩, ⟨none, true, true, true, true, true, true⟩)]
    (fun _ => true) (fun _ => true) false 1 0 (by decide)
  obtain ⟨h1, h2, h3, h4, h5⟩ := h
  refine ⟨h1, h2, ?_, ?_⟩
  · rw [h3]
    rfl
  · rw [h5]
    rfl

/-- C8 counterexample: a deletion failure CAN abort the remaining deletions.
With two successfully converted candidates, every `remove_file` failing and
a broken stderr, the report of the first failed deletion panics: only the
first candidate is ever attempted, the second deletion never happens. -/
theorem delete_report_panic_cex :
    (mainRun [(⟨"a", some "png"⟩, ⟨some (10, 10), true, true, true, true, true, true⟩),
              (⟨"b", some "png"⟩, ⟨some (10, 10), true, true, true, true, true, true⟩)]
        (fun _ => false) (fun _ => false) true 1 0).candidates =
      [⟨"a", some "png"⟩, ⟨"b", some "png"⟩] ∧
    (mainRun [(⟨"a", some "png"⟩, ⟨some (10, 10), true, true, true, true, true, true⟩),
              (⟨"b", some "png"⟩, ⟨some (10, 10), true, true, true, true, true, true⟩)]
        (fun _ => false) (fun _ => false) true 1 0).deletions =
      [(⟨"a", some "png"⟩, false)] ∧
    (mainRun [(⟨"a", some "png"⟩, ⟨some (10, 10), true, true, true, true, true, true⟩),
              (⟨"b", some "png"⟩, ⟨some (10, 10), true, true, true, true, true, true⟩)]
        (fun _ => false) (fun _ => false) true 1 0).deleteDied = true := by
  have hflip : ∀ p : PathBuf, ∀ q : ℚ,
      flip ⟨some (10, 10), true, true, true, true, true, true⟩ p q 0 =
      (FlipResult.ok (resizeStep 10 10 q),
        [FsEvent.create (p.set_extension "gif"),
         FsEvent.writeFrame (p.set_extension "gif")]) := by
    intro p q
    simp [flip, cropStep]
  refine ⟨?_, ?_, ?_⟩ <;> simp [mainRun, runLoop, hflip, deleteLoop]

/-- C8 (amended): when the destroy flag is set — all console writes of the
conversion phase succeeding, and every stderr report of a failed deletion
succeeding — every recorded deletion candidate is attempted exactly once, in
order: a deletion failure for one file is reported but neither aborts the
remaining deletions nor changes the reported count, which is computed before
any deletion is attempted and is therefore the same for every
deletion-failure pattern.  (If a deletion-failure report itself fails, the
`eprintln!` panics and the remaining deletions are abandoned; see the
counterexample.) -/
theorem destroy_deletion_accounting (entries : List (PathBuf × ConvEnv))
    (f g rep : PathBuf → Bool) (scale : ℚ) (c : ℕ)
    (hcon : ∀ e ∈ entries, e.2.consoleOk = true)
    (hrep : ∀ p, rep p = true) :
    (mainRun entries f rep true scale c).deletions =
      (mainRun entries f rep true scale c).candidates.map (fun p => (p, f p)) ∧
    (mainRun entries f rep true scale c).deletions.map Prod.fst =
      (mainRun entries f rep true scale c).candidates ∧
    (mainRun entries f rep true scale c).deleteDied = false ∧
    (mainRun entries f rep true scale c).count =
      (mainRun entries f rep true scale c).candidates.length ∧
    (mainRun entries f rep true scale c).count =
      (mainRun entries g rep true scale c).count := by
  obtain ⟨hdied, -, -, -⟩ := runLoop_spec (min scale 10) c entries hcon
  have hdel := deleteLoop_spec f rep (runLoop (min scale 10) c entries).2.1
    (fun p _ => hrep p)
  refine ⟨?_, ?_, ?_, ?_, ?_⟩ <;>
    simp [mainRun, hdied, hdel, List.map_map, Function.comp_def]

/-- C8 witness: one succeeding entry, its deletion failing but the report
succeeding — the candidate is attempted, the pass survives, and the count
is the same as with a succeeding deletion. -/
theorem destroy_deletion_accounting_witness :
    (mainRun [(⟨"a", some "png"⟩, ⟨some (10, 10), true, true, true, true, true, true⟩)]
        (fun _ => false) (fun _ => true) true 1 0).deletions =
      (mainRun [(⟨"a", some "png"⟩, ⟨some (10, 10), true, true, true, true, true, true⟩)]
        (fun _ => false) (fun _ => true) true 1 0).candidates.map (fun p => (p, false)) ∧
    (mainRun [(⟨"a", some "png"⟩, ⟨some (10, 10), true, true, true, true, true, true⟩)]
        (fun _ => false) (fun _ => true) true 1 0).deletions.map Prod.fst =
      (mainRun [(⟨"a", some "png"⟩, ⟨some (10, 10), true, true, true, true, true, true⟩)]
        (fun _ => false) (fun _ => true) true 1 0).candidates ∧
    (mainRun [(⟨"a", some "png"⟩, ⟨some (10, 10), true, true, true, true, true, true⟩)]
        (fun _ => false) (fun _ => true) true 1 0).deleteDied = false ∧
    (mainRun [(⟨"a", some "png"⟩, ⟨some (10, 10), true, true, true, true, true, true⟩)]
        (fun _ => false) (fun _ => true) true 1 0).count =
      (mainRun [(⟨"a", some "png"⟩, ⟨some (10, 10), true, true, true, true, true, true⟩)]
        (fun _ => false) (fun _ => true) true 1 0).candidates.length ∧
    (mainRun [(⟨"a", some "png"⟩, ⟨some (10, 10), true, true, true, true, true, true⟩)]
        (fun _ => false) (fun _ => true) true 1 0).count =
      (mainRun [(⟨"a", some "png"⟩, ⟨some (10, 10), true, true, true, true, true, true⟩)]
        (fun _ => true) (fun _ => true) true 1 0).count :=
  destroy_deletion_accounting
    [(⟨"a", some "png"⟩, ⟨some (10, 10), true, true, true, true, true, true⟩)]
    (fun _ => false) (fun _ => true) (fun _ => true) 1 0 (by decide) (fun _ => rfl)

/-- C9: when the extension of the source path is already `gif`, the computed
output path equals the source path, so a successful conversion overwrites
the source in place — and with the destroy flag set, the batch driver
afterwards attempts to delete that very path, removing the freshly written
output together with the source. -/
theorem gif_source_overwritten (p : PathBuf) (env : ConvEnv) (w h : ℕ) (s : ℚ)
    (f rep : PathBuf → Bool)
    (hext : p.ext = some "gif") (hd : env.decoded = some (w, h))
    (hc : env.createOk = true) (hpr : env.printOk = true) (hfl : env.flushOk = true)
    (he : env.encodeOk = true) (hl : env.printlnOk = true) :
    p.set_extension "gif" = p ∧
    flip env p s 0 = (FlipResult.ok (resizeStep w h s),
      [FsEvent.create p, FsEvent.writeFrame p]) ∧
    (mainRun [(p, env)] f rep true s 0).deletions = [(p, f p)] := by
  have hpe : p.set_extension "gif" = p := by
    cases p
    simp only [PathBuf.set_extension, PathBuf.mk.injEq] at *
    simp_all
  have hflip : ∀ q : ℚ, flip env p q 0 =
      (FlipResult.ok (resizeStep w h q), [FsEvent.create p, FsEvent.writeFrame p]) := by
    intro q
    simp [flip, hd, cropStep, hc, hpr, hfl, he, hl, hpe]
  refine ⟨hpe, hflip s, ?_⟩
  have hrun : runLoop (min s 10) 0 [(p, env)] =
      ([(FlipResult.ok (resizeStep w h (min s 10)),
        [FsEvent.create p, FsEvent.writeFrame p])], [p], false) := by
    simp [runLoop, hflip (min s 10)]
  simp [mainRun, hrun, deleteLoop_singleton]

/-- C9 witness: flipping `anim.gif` succeeds in place and the destroy pass
then attempts to delete `anim.gif` itself. -/
theorem gif_source_overwritten_witness :
    PathBuf.set_extension ⟨"anim", some "gif"⟩ "gif" = ⟨"anim", some "gif"⟩ ∧
    flip ⟨some (10, 10), true, true, true, true, true, true⟩ ⟨"anim", some "gif"⟩ 1 0 =
      (FlipResult.ok (resizeStep 10 10 1),
       [FsEvent.create ⟨"anim", some "gif"⟩, FsEvent.writeFrame ⟨"anim", some "gif"⟩]) ∧
    (mainRun [(⟨"anim", some "gif"⟩, ⟨some (10, 10), true, true, true, true, true, true⟩)]
        (fun _ => true) (fun _ => true) true 1 0).deletions =
      [(⟨"anim", some "gif"⟩, true)] :=
  gif_source_overwritten ⟨"anim", some "gif"⟩
    ⟨some (10, 10), true, true, true, true, true, true⟩
    10 10 1 (fun _ => true) (fun _ => true) rfl rfl rfl rfl rfl rfl rfl

end Flip
